import Mathlib

/-!
Verification of the reearthx document-store access layer.

Shallow embedding of:
- `mongox.Collection.Find`, `FindOne`, `SaveAll` (mongo.go): the streaming
  consumption protocol and bulk upsert. The driver cursor is modelled as the
  list of documents it delivers plus a terminal status (`CursorStatus`):
  `cursor.Next` yields each document in order, and when the stream ends
  `cursor.Err()` returns the terminal status. Documents (`bson.Raw`) and the
  payloads of errors are opaque and modelled as `Nat` tags. A `Consumer` is
  stateful in Go, so it is modelled as a function of the call index and the
  call argument; `Find` additionally returns the trace of arguments the
  consumer was called with, so that claims about which `Consume` calls happen
  can be stated.
- `usecasex.Pagination` (pagination.go) with an explicit heap of descriptor
  cells, so that pointer identity and mutation independence of `Clone` can be
  stated.
- the in-memory user repository (accountmemory/user.go).
-/

/-- Go error values relevant to mongo.go, compared with `errors.Is`:
`eof` is `io.EOF`; `notFound` is `rerror.ErrNotFound`; `transaction` is
`usecasex.ErrTransaction`; `internal tag` is `rerror.ErrInternalBy` wrapping
the raw error `tag`; `custom tag` is any other error a consumer may return. -/
inductive MErr where
  | eof
  | notFound
  | transaction
  | internal (tag : Nat)
  | custom (tag : Nat)
deriving DecidableEq

/-- Terminal status of a driver cursor: `clean` (stream exhausted, `Err()`
nil), `eofEnd` (`Err()` is `io.EOF`, tolerated by the loop), or
`failed tx tag` (`Err()` is a real error; `tx` says whether
`IsTransactionError` holds for it). -/
inductive CursorStatus where
  | clean
  | eofEnd
  | failed (tx : Bool) (tag : Nat)
deriving DecidableEq

/-- A failure of the driver call itself (`client.Find` / `client.FindOne`):
`nilDocument` is `mongo.ErrNilDocument`, `noDocuments` is
`mongo.ErrNoDocuments`, `other tx tag` is any other driver error. -/
inductive DriverFailure where
  | nilDocument
  | noDocuments
  | other (tx : Bool) (tag : Nat)
deriving DecidableEq

/-- `wrapError` (mongo.go): a transaction error becomes
`usecasex.ErrTransaction`, anything else `rerror.ErrInternalBy(err)`. -/
def wrapError (tx : Bool) (tag : Nat) : MErr :=
  if tx then MErr.transaction else MErr.internal tag

/-- The `for` loop of `Collection.Find` (mongo.go lines 46-62).
`consume k a` is the consumer's response to its `k`-th call with argument `a`
(`none` result = nil error). Returns the error `Find` returns (`none` =
success) and the trace of arguments passed to `Consume`. -/
def findLoop (consume : Nat → Option Nat → Option MErr) (st : CursorStatus) :
    Nat → List Nat → Option MErr × List (Option Nat)
  | k, [] =>
    match st with
    | CursorStatus.failed tx tag => (some (wrapError tx tag), [])
    | _ =>
      match consume k none with
      | some e => if e = MErr.eof then (none, [none]) else (some e, [none])
      | none => (none, [none])
  | k, d :: ds =>
    match consume k (some d) with
    | some e => (some e, [some d])
    | none =>
      let r := findLoop consume st (k + 1) ds
      (r.1, some d :: r.2)

/-- `Collection.Find` (mongo.go lines 34-64). The driver call result is a
parameter: either a failure, or the delivered documents together with the
cursor's terminal status. Query options and `AllowDiskUse` have no semantic
content here and are omitted. -/
def Collection.Find (driver : Except DriverFailure (List Nat × CursorStatus))
    (consume : Nat → Option Nat → Option MErr) : Option MErr × List (Option Nat) :=
  match driver with
  | Except.error DriverFailure.nilDocument => (some MErr.notFound, [])
  | Except.error DriverFailure.noDocuments => (some MErr.notFound, [])
  | Except.error (DriverFailure.other tx tag) => (some (wrapError tx tag), [])
  | Except.ok (docs, st) => findLoop consume st 0 docs

/-- `Collection.FindOne` (mongo.go lines 66-78). The driver
`FindOne(...).DecodeBytes()` result is a parameter; the consumer is called at
most once, so it is just a function of the document. -/
def Collection.FindOne (driver : Except DriverFailure Nat)
    (consume : Nat → Option MErr) : Option MErr :=
  match driver with
  | Except.error DriverFailure.nilDocument => some MErr.notFound
  | Except.error DriverFailure.noDocuments => some MErr.notFound
  | Except.error (DriverFailure.other tx tag) => some (wrapError tx tag)
  | Except.ok raw =>
    match consume raw with
    | some e => if e = MErr.eof then none else some e
    | none => none

/-- One `mongo.WriteModel` built by `SaveAll`: a `ReplaceOneModel` with filter
`{id: filterId}`, the replacement document (opaque `Nat`), and upsert set. -/
structure WriteModel where
  filterId : String
  replacement : Nat
  upsert : Bool
deriving DecidableEq

/-- `Collection.SaveAll` (mongo.go lines 137-159). `bulk` is the driver's
`BulkWrite`; the result pairs the returned error with the list of write
models actually submitted to the driver (`[]` when `BulkWrite` is never
called). The length mismatch error is `wrapError` applied to the plain error
`errors.New("invalid save args")`, which is not a transaction error. -/
def Collection.SaveAll (bulk : List WriteModel → Option MErr)
    (ids : List String) (updates : List Nat) : Option MErr × List WriteModel :=
  if ids.length = 0 ∨ updates.length = 0 then (none, [])
  else if ids.length ≠ updates.length then (some (wrapError false 0), [])
  else
    let writeModels := (ids.zip updates).map fun p => WriteModel.mk p.1 p.2 true
    (bulk writeModels, writeModels)

/-! ## Pagination model (usecasex/pagination.go), with an explicit heap

Go's `CursorPagination` holds pointer fields (`*Cursor`, `*int64`); a nil
pointer is `none` and a non-nil pointer is `some loc` where `loc` is an
abstract heap location of the pointee. `util.CloneRef` copies the struct a
pointer refers to into a freshly allocated cell (the struct's own pointer
fields keep their values, i.e. the copy is one level deep, exactly as
`v := *p; return &v` in Go). The heap maps locations to descriptor structs;
`next` is the next fresh location, so a well-formed configuration has all
live locations `< next`. -/

/-- `usecasex.CursorPagination`: relay-style cursor pagination. The four
fields are pointers (`Before`/`After : *Cursor`, `First`/`Last : *int64`),
modelled as optional pointee locations. -/
structure CursorPagination where
  before : Option Nat
  after : Option Nat
  first : Option Nat
  last : Option Nat
deriving DecidableEq

/-- `usecasex.OffsetPagination`: skip/take pagination (value fields). -/
structure OffsetPagination where
  offset : Int
  limit : Int
deriving DecidableEq

/-- `usecasex.Pagination`: holds `Cursor *CursorPagination` and
`Offset *OffsetPagination`, modelled as optional heap locations. -/
structure Pagination where
  cursor : Option Nat
  offset : Option Nat
deriving DecidableEq

/-- Heap of pagination descriptor cells: `cpag loc` is the
`CursorPagination` stored at `loc`, `opag loc` the `OffsetPagination`;
`next` is the next fresh location. -/
structure PagHeap where
  cpag : Nat → CursorPagination
  opag : Nat → OffsetPagination
  next : Nat

/-- Allocate a `CursorPagination` cell holding `c`; returns its location. -/
def allocC (h : PagHeap) (c : CursorPagination) : Nat × PagHeap :=
  (h.next,
   { h with cpag := fun n => if n = h.next then c else h.cpag n, next := h.next + 1 })

/-- Allocate an `OffsetPagination` cell holding `o`; returns its location. -/
def allocO (h : PagHeap) (o : OffsetPagination) : Nat × PagHeap :=
  (h.next,
   { h with opag := fun n => if n = h.next then o else h.opag n, next := h.next + 1 })

/-- `util.CloneRef` on a `*CursorPagination`: nil stays nil, otherwise the
pointee struct is copied into a fresh cell. -/
def cloneRefC (h : PagHeap) (l : Option Nat) : Option Nat × PagHeap :=
  match l with
  | none => (none, h)
  | some loc =>
    let r := allocC h (h.cpag loc)
    (some r.1, r.2)

/-- `util.CloneRef` on a `*OffsetPagination`. -/
def cloneRefO (h : PagHeap) (l : Option Nat) : Option Nat × PagHeap :=
  match l with
  | none => (none, h)
  | some loc =>
    let r := allocO h (h.opag loc)
    (some r.1, r.2)

/-- `CursorPagination.Wrap` (pagination.go lines 14-18): takes the receiver
by value (so `&p` is a fresh cell holding a copy) and wraps it with the
`Offset` pointer nil. -/
def CursorPagination.wrap (h : PagHeap) (c : CursorPagination) : Pagination × PagHeap :=
  let r := allocC h c
  (Pagination.mk (some r.1) none, r.2)

/-- `OffsetPagination.Wrap` (pagination.go lines 25-29). -/
def OffsetPagination.wrap (h : PagHeap) (o : OffsetPagination) : Pagination × PagHeap :=
  let r := allocO h o
  (Pagination.mk none (some r.1), r.2)

/-- `Pagination.Clone` (pagination.go lines 36-45): nil receiver yields nil;
otherwise a new `Pagination` whose `Cursor` and `Offset` are `CloneRef`s of
the receiver's. -/
def Pagination.clone (h : PagHeap) (p : Option Pagination) :
    Option Pagination × PagHeap :=
  match p with
  | none => (none, h)
  | some pg =>
    let rc := cloneRefC h pg.cursor
    let ro := cloneRefO rc.2 pg.offset
    (some (Pagination.mk rc.1 ro.1), ro.2)

/-- Mutation of the `CursorPagination` cell at `loc` (assignment through a
`*CursorPagination` to any of its fields is an instance of `f`). -/
def updateC (h : PagHeap) (loc : Nat) (f : CursorPagination → CursorPagination) : PagHeap :=
  { h with cpag := fun n => if n = loc then f (h.cpag n) else h.cpag n }

/-- Mutation of the `OffsetPagination` cell at `loc`. -/
def updateO (h : PagHeap) (loc : Nat) (f : OffsetPagination → OffsetPagination) : PagHeap :=
  { h with opag := fun n => if n = loc then f (h.opag n) else h.opag n }

/-- The `Cursor` pointer of an optional `Pagination` (nil pointer: none). -/
def optCursor : Option Pagination → Option Nat
  | none => none
  | some p => p.cursor

/-- The `Offset` pointer of an optional `Pagination` (nil pointer: none). -/
def optOffset : Option Pagination → Option Nat
  | none => none
  | some p => p.offset

/-- A one-cell example heap for concrete instances: location 0 is live. -/
def pagHeap0 : PagHeap :=
  PagHeap.mk (fun _ => CursorPagination.mk none none none none)
    (fun _ => OffsetPagination.mk 0 0) 1

/-! ## In-memory user repository (accountmemory/user.go) -/

/-- Modelled from the spec: the `user.User` domain aggregate, which is out of
scope of the core ("domain entity definitions ... and their business rules").
Only the accessors used by the repository are modelled: `ID()`, `Name()`,
`Email()`, `ContainAuth(AuthFrom(sub))` (auth credentials as a list of
strings), `Verification().Code()` and `PasswordReset().Token` (each `nil`-able,
hence optional). -/
structure UserV where
  uid : Nat
  uname : String
  uemail : String
  auths : List String
  verificationCode : Option String
  passwordResetToken : Option String
deriving DecidableEq

/-- `user.User.ContainAuth(user.AuthFrom(sub))`: whether the user's auth list
contains the credential `sub`. -/
def UserV.containAuth (u : UserV) (sub : String) : Bool :=
  u.auths.contains sub

/-- Errors of the repository layer: `rerror.ErrNotFound`,
`rerror.ErrInvalidParams`, `accountrepo.ErrDuplicatedUser`, and an arbitrary
injected fault (`SetUserError`). -/
inductive RErr where
  | notFound
  | invalidParams
  | duplicatedUser
  | injected (tag : Nat)
deriving DecidableEq

/-- Modelled from the spec: `util.SyncMap` (not under src/), "a concurrent
associative map from identifier to domain value" whose "find by X" operations
are "a linear predicate scan over the map's current snapshot". Modelled as an
association list with unique keys: `store` replaces the entry for an existing
key in place or appends a new one, `load` looks up by key, `find` is the
linear predicate scan returning the first match (nil when none). -/
def SyncMap := List (Nat × UserV)

/-- `SyncMap.Store`: insert or replace the entry for key `k`. -/
def SyncMap.store (m : SyncMap) (k : Nat) (v : UserV) : SyncMap :=
  match m with
  | [] => [(k, v)]
  | kv :: rest =>
    if kv.1 = k then (k, v) :: rest else kv :: SyncMap.store rest k v

/-- `SyncMap.Load`: the value stored under key `k`, if any. -/
def SyncMap.load (m : SyncMap) (k : Nat) : Option UserV :=
  (List.find? (fun kv => kv.1 = k) m).map (fun kv => kv.2)

/-- `SyncMap.Find`: first value satisfying the predicate, nil when none. -/
def SyncMap.find (m : SyncMap) (p : Nat → UserV → Bool) : Option UserV :=
  (List.find? (fun kv => p kv.1 kv.2) m).map (fun kv => kv.2)

/-- `rerror.ErrIfNil(v, err)`: `err` when `v` is nil, else `v`. -/
def errIfNil (v : Option UserV) (e : RErr) : Except RErr UserV :=
  match v with
  | some u => Except.ok u
  | none => Except.error e

/-- `accountmemory.User`: the in-memory repository, a `SyncMap` plus the
injectable fault `err` that short-circuits every operation. -/
structure UserRepo where
  data : SyncMap
  err : Option RErr

/-- `User.FindBySub` (user.go lines 54-66). -/
def UserRepo.findBySub (r : UserRepo) (sub : String) : Except RErr UserV :=
  match r.err with
  | some e => Except.error e
  | none =>
    if sub = "" then Except.error RErr.invalidParams
    else errIfNil (SyncMap.find r.data fun _ v => v.containAuth sub) RErr.notFound

/-- `User.FindByPasswordResetRequest` (user.go lines 68-80). -/
def UserRepo.findByPasswordResetRequest (r : UserRepo) (token : String) : Except RErr UserV :=
  match r.err with
  | some e => Except.error e
  | none =>
    if token = "" then Except.error RErr.invalidParams
    else errIfNil
      (SyncMap.find r.data fun _ v =>
        match v.passwordResetToken with
        | some t => t = token
        | none => false)
      RErr.notFound

/-- `User.FindByEmail` (user.go lines 82-94). -/
def UserRepo.findByEmail (r : UserRepo) (email : String) : Except RErr UserV :=
  match r.err with
  | some e => Except.error e
  | none =>
    if email = "" then Except.error RErr.invalidParams
    else errIfNil (SyncMap.find r.data fun _ v => v.uemail = email) RErr.notFound

/-- `User.FindByName` (user.go lines 96-108). -/
def UserRepo.findByName (r : UserRepo) (n : String) : Except RErr UserV :=
  match r.err with
  | some e => Except.error e
  | none =>
    if n = "" then Except.error RErr.invalidParams
    else errIfNil (SyncMap.find r.data fun _ v => v.uname = n) RErr.notFound

/-- `User.FindByNameOrEmail` (user.go lines 110-122). -/
def UserRepo.findByNameOrEmail (r : UserRepo) (s : String) : Except RErr UserV :=
  match r.err with
  | some e => Except.error e
  | none =>
    if s = "" then Except.error RErr.invalidParams
    else errIfNil (SyncMap.find r.data fun _ v => v.uemail = s ∨ v.uname = s) RErr.notFound

/-- `User.FindByVerification` (user.go lines 124-137). -/
def UserRepo.findByVerification (r : UserRepo) (code : String) : Except RErr UserV :=
  match r.err with
  | some e => Except.error e
  | none =>
    if code = "" then Except.error RErr.invalidParams
    else errIfNil
      (SyncMap.find r.data fun _ v =>
        match v.verificationCode with
        | some c => c = code
        | none => false)
      RErr.notFound

/-- `User.FindBySubOrCreate` (user.go lines 139-152): scan for a user holding
the credential; if none, store the candidate under its own id and return it,
else return the found user. Returns the result and the updated repository. -/
def UserRepo.findBySubOrCreate (r : UserRepo) (u : UserV) (sub : String) :
    Except RErr UserV × UserRepo :=
  match r.err with
  | some e => (Except.error e, r)
  | none =>
    match SyncMap.find r.data (fun _ v => v.containAuth sub) with
    | none => (Except.ok u, { r with data := SyncMap.store r.data u.uid u })
    | some u2 => (Except.ok u2, r)

/-- `User.Create` (user.go lines 154-166): fails with `ErrDuplicatedUser`
when the id is already present, else stores. -/
def UserRepo.create (r : UserRepo) (u : UserV) : Option RErr × UserRepo :=
  match r.err with
  | some e => (some e, r)
  | none =>
    match SyncMap.load r.data u.uid with
    | none => (none, { r with data := SyncMap.store r.data u.uid u })
    | some _ => (some RErr.duplicatedUser, r)

/-- `User.Save` (user.go lines 168-175): unconditional store. -/
def UserRepo.save (r : UserRepo) (u : UserV) : Option RErr × UserRepo :=
  match r.err with
  | some e => (some e, r)
  | none => (none, { r with data := SyncMap.store r.data u.uid u })

/-! ## Helper lemmas -/

/-- On a clean stream, a consumer that accepts every delivered document drives
the loop through all documents and then through exactly one terminal nil
call, whose response decides the result. -/
theorem findLoop_all_ok (consume : Nat → Option Nat → Option MErr) (docs : List Nat) :
    ∀ (k : Nat),
      (∀ i (hi : i < docs.length), consume (k + i) (some (docs.get ⟨i, hi⟩)) = none) →
      findLoop consume CursorStatus.clean k docs =
        ((match consume (k + docs.length) none with
          | some e => if e = MErr.eof then none else some e
          | none => none), docs.map some ++ [none]) := by
  induction docs with
  | nil =>
    intro k h
    cases hc : consume k none with
    | none => simp [findLoop, hc]
    | some e =>
      by_cases he : e = MErr.eof <;> simp [findLoop, hc, he]
  | cons d ds ih =>
    intro k h
    have h0 : consume k (some d) = none := by simpa using h 0 (by simp)
    have hih := ih (k + 1) (fun i hi => by
      have hx := h (i + 1) (by simp; omega)
      have harith : k + (i + 1) = k + 1 + i := by omega
      rw [harith] at hx
      simpa using hx)
    have harith2 : k + 1 + ds.length = k + (d :: ds).length := by simp; omega
    rw [harith2] at hih
    simp [findLoop, h0, hih]

/-- If the consumer accepts the first `i` documents and returns an error on
document `i`, the loop returns that error and the trace stops there. -/
theorem findLoop_abort (consume : Nat → Option Nat → Option MErr) (docs : List Nat) :
    ∀ (k i : Nat) (e : MErr) (hi : i < docs.length),
      (∀ j (hj : j < docs.length), j < i → consume (k + j) (some (docs.get ⟨j, hj⟩)) = none) →
      consume (k + i) (some (docs.get ⟨i, hi⟩)) = some e →
      findLoop consume CursorStatus.clean k docs = (some e, (docs.take (i + 1)).map some) := by
  induction docs with
  | nil =>
    intro k i e hi
    exact absurd hi (by simp)
  | cons d ds ih =>
    intro k i e hi hpre hcur
    cases i with
    | zero =>
      have h0 : consume k (some d) = some e := by simpa using hcur
      simp [findLoop, h0]
    | succ i =>
      have h0 : consume k (some d) = none := by
        simpa using hpre 0 (by simp) (by omega)
      have hih := ih (k + 1) i e (by simp at hi; omega)
        (fun j hj hji => by
          have hx := hpre (j + 1) (by simp; omega) (by omega)
          have harith : k + (j + 1) = k + 1 + j := by omega
          rw [harith] at hx
          simpa using hx)
        (by
          have harith : k + (i + 1) = k + 1 + i := by omega
          rw [harith] at hcur
          simpa using hcur)
      simp [findLoop, h0, hih]

/-- Storing under key `k` makes `k` load the stored value. -/
theorem SyncMap.load_store_self (m : SyncMap) (k : Nat) (v : UserV) :
    SyncMap.load (SyncMap.store m k v) k = some v := by
  induction m with
  | nil => simp [SyncMap.store, SyncMap.load]
  | cons kv rest ih =>
    by_cases h : kv.1 = k
    · simp [SyncMap.store, h, SyncMap.load]
    · simp only [SyncMap.store, if_neg h]
      simp only [SyncMap.load] at ih ⊢
      rw [List.find?_cons_of_neg]
      · exact ih
      · simp [h]

/-- If no entry of `m` satisfies `p` and the stored value does, the scan of
the updated map finds exactly the stored value. -/
theorem SyncMap.find_store_of_none (m : SyncMap) (k : Nat) (v : UserV)
    (p : Nat → UserV → Bool) (hm : SyncMap.find m p = none) (hv : p k v = true) :
    SyncMap.find (SyncMap.store m k v) p = some v := by
  induction m with
  | nil => simp [SyncMap.store, SyncMap.find, hv]
  | cons kv rest ih =>
    have hkv : p kv.1 kv.2 = false := by
      cases hx : p kv.1 kv.2
      · rfl
      · exfalso
        simp only [SyncMap.find] at hm
        rw [List.find?_cons_of_pos _ (by simp [hx])] at hm
        simp at hm
    have hrest : SyncMap.find rest p = none := by
      simp only [SyncMap.find] at hm ⊢
      rw [List.find?_cons_of_neg _ (by simp [hkv])] at hm
      exact hm
    by_cases h : kv.1 = k
    · simp only [SyncMap.store, if_pos h]
      simp only [SyncMap.find]
      rw [List.find?_cons_of_pos _ (by simp [hv])]
      rfl
    · simp only [SyncMap.store, if_neg h]
      simp only [SyncMap.find] at ih ⊢
      rw [List.find?_cons_of_neg _ (by simp [hkv])]
      exact ih hrest

/-- Computation of `Clone` when the `Cursor` pointer is set: the copy lives
at the fresh location `h.next` and only that cell of the cursor heap
changes. -/
theorem clone_cursor_some (h : PagHeap) (l : Nat) (po : Option Nat) :
    optCursor (Pagination.clone h (some (Pagination.mk (some l) po))).1 = some h.next ∧
    (∀ n, (Pagination.clone h (some (Pagination.mk (some l) po))).2.cpag n
        = if n = h.next then h.cpag l else h.cpag n) := by
  cases po <;>
    simp [Pagination.clone, cloneRefC, cloneRefO, allocC, allocO, optCursor]

/-- Computation of `Clone` when the `Offset` pointer is set: the copy lives
at a fresh location at or above `h.next` and only that cell of the offset
heap changes. -/
theorem clone_offset_some (h : PagHeap) (m : Nat) (pc : Option Nat) :
    ∃ lo, optOffset (Pagination.clone h (some (Pagination.mk pc (some m)))).1 = some lo ∧
      h.next ≤ lo ∧
      (∀ n, (Pagination.clone h (some (Pagination.mk pc (some m)))).2.opag n
          = if n = lo then h.opag m else h.opag n) := by
  cases pc with
  | none =>
    refine ⟨h.next, ?_, Nat.le_refl _, fun n => ?_⟩ <;>
      simp [Pagination.clone, cloneRefC, cloneRefO, allocC, allocO, optOffset]
  | some l =>
    refine ⟨h.next + 1, ?_, by omega, fun n => ?_⟩ <;>
      simp [Pagination.clone, cloneRefC, cloneRefO, allocC, allocO, optOffset]

/-! ## Claims about SaveAll -/

/-- C3: for non-empty `ids` and `updates` of different lengths, `SaveAll`
returns the Internal-classified "invalid save args" error and submits zero
write operations to the driver, whatever the driver would answer. -/
theorem saveAll_length_mismatch (bulk : List WriteModel → Option MErr)
    (ids : List String) (updates : List Nat)
    (h1 : ids ≠ []) (h2 : updates ≠ []) (h3 : ids.length ≠ updates.length) :
    Collection.SaveAll bulk ids updates = (some (MErr.internal 0), []) := by
  have hi : ¬(ids.length = 0 ∨ updates.length = 0) := by
    push_neg
    exact ⟨fun h => h1 (List.length_eq_zero.mp h), fun h => h2 (List.length_eq_zero.mp h)⟩
  unfold Collection.SaveAll
  rw [if_neg hi, if_pos h3]
  rfl

/-- Witness for C3 at `ids = ["a"]`, `updates = [1, 2]`. -/
theorem saveAll_length_mismatch_wit :
    Collection.SaveAll (fun _ => none) ["a"] [1, 2] = (some (MErr.internal 0), []) :=
  saveAll_length_mismatch (fun _ => none) ["a"] [1, 2]
    (by decide) (by decide) (by decide)

/-- C4: when either slice is empty — the other may be non-empty — `SaveAll`
succeeds and submits no write operations. -/
theorem saveAll_empty_noop (bulk : List WriteModel → Option MErr)
    (ids : List String) (updates : List Nat) (h : ids = [] ∨ updates = []) :
    Collection.SaveAll bulk ids updates = (none, []) := by
  have hi : ids.length = 0 ∨ updates.length = 0 := by
    cases h with
    | inl h => exact Or.inl (by simp [h])
    | inr h => exact Or.inr (by simp [h])
  unfold Collection.SaveAll
  rw [if_pos hi]

/-- Witness for C4 at `ids = []`, `updates = [5]` (other slice non-empty). -/
theorem saveAll_empty_noop_wit :
    Collection.SaveAll (fun _ => some (MErr.custom 7)) [] [5] = (none, []) :=
  saveAll_empty_noop (fun _ => some (MErr.custom 7)) [] [5] (Or.inl rfl)

/-! ## Claims about the Find streaming protocol -/

/-- C1: on a clean stream, when the consumer accepts every delivered
document, `Consume(nil)` is called exactly once, after all documents (the
trace is the documents followed by one nil call); if that terminal call
returns nil or the end-of-stream sentinel, `Find` succeeds, and any other
terminal error propagates. When the consumer returns a non-sentinel error on
some document, `Find` returns that error and makes no further `Consume`
calls. -/
theorem find_stream_protocol :
    (∀ (docs : List Nat) (consume : Nat → Option Nat → Option MErr),
      (∀ i (hi : i < docs.length), consume i (some (docs.get ⟨i, hi⟩)) = none) →
      (Collection.Find (Except.ok (docs, CursorStatus.clean)) consume).2
          = docs.map some ++ [none] ∧
      ((consume docs.length none = none ∨ consume docs.length none = some MErr.eof) →
        (Collection.Find (Except.ok (docs, CursorStatus.clean)) consume).1 = none) ∧
      (∀ e, e ≠ MErr.eof → consume docs.length none = some e →
        (Collection.Find (Except.ok (docs, CursorStatus.clean)) consume).1 = some e)) ∧
    (∀ (docs : List Nat) (consume : Nat → Option Nat → Option MErr) (i : Nat) (e : MErr)
      (hi : i < docs.length),
      (∀ j (hj : j < docs.length), j < i → consume j (some (docs.get ⟨j, hj⟩)) = none) →
      consume i (some (docs.get ⟨i, hi⟩)) = some e → e ≠ MErr.eof →
      Collection.Find (Except.ok (docs, CursorStatus.clean)) consume
        = (some e, (docs.take (i + 1)).map some)) := by
  constructor
  · intro docs consume hok
    have hl := findLoop_all_ok consume docs 0 (fun i hi => by simpa using hok i hi)
    simp only [Nat.zero_add] at hl
    refine ⟨by simp [Collection.Find, hl], ?_, ?_⟩
    · intro hc
      cases hc with
      | inl hc => simp [Collection.Find, hl, hc]
      | inr hc => simp [Collection.Find, hl, hc]
    · intro e he hc
      simp [Collection.Find, hl, hc, he]
  · intro docs consume i e hi hpre hcur _
    have hl := findLoop_abort consume docs 0 i e hi
      (fun j hj hji => by simpa using hpre j hj hji) (by simpa using hcur)
    simp [Collection.Find, hl]

/-- Witness for C1: one document, all-accepting consumer. -/
theorem find_stream_protocol_wit :
    (Collection.Find (Except.ok ([5], CursorStatus.clean)) (fun _ _ => none)).2
        = [some 5, none] ∧
    (Collection.Find (Except.ok ([5], CursorStatus.clean)) (fun _ _ => none)).1 = none := by
  have h := find_stream_protocol.1 [5] (fun _ _ => none) (fun i hi => rfl)
  exact ⟨by simpa using h.1, h.2.1 (Or.inl rfl)⟩

/-- Counterexample to C2: in `Find`, the end-of-stream sentinel returned from
a document-carrying (non-terminal) `Consume` call is not treated as success —
it propagates as the returned error. -/
theorem find_eof_doc_call_cex :
    (Collection.Find (Except.ok ([0], CursorStatus.clean)) (fun _ _ => some MErr.eof)).1
      = some MErr.eof ∧ some MErr.eof ≠ (none : Option MErr) :=
  ⟨rfl, by simp⟩

/-- C2 (amended): consumer errors propagate unchanged to the `FindOne`/`Find`
caller; the end-of-stream sentinel is treated as success when returned from
`FindOne`'s single document call or from `Find`'s terminal nil call, but a
sentinel returned from a document-carrying `Consume` call in `Find`
propagates as the returned error (like any other error). -/
theorem consume_error_propagation :
    (∀ (raw : Nat) (consume : Nat → Option MErr) (e : MErr), consume raw = some e →
      Collection.FindOne (Except.ok raw) consume
        = (if e = MErr.eof then none else some e)) ∧
    (∀ (docs : List Nat) (consume : Nat → Option Nat → Option MErr),
      (∀ i (hi : i < docs.length), consume i (some (docs.get ⟨i, hi⟩)) = none) →
      consume docs.length none = some MErr.eof →
      (Collection.Find (Except.ok (docs, CursorStatus.clean)) consume).1 = none) ∧
    (∀ (docs : List Nat) (consume : Nat → Option Nat → Option MErr) (i : Nat) (e : MErr)
      (hi : i < docs.length),
      (∀ j (hj : j < docs.length), j < i → consume j (some (docs.get ⟨j, hj⟩)) = none) →
      consume i (some (docs.get ⟨i, hi⟩)) = some e →
      (Collection.Find (Except.ok (docs, CursorStatus.clean)) consume).1 = some e) := by
  refine ⟨?_, ?_, ?_⟩
  · intro raw consume e hc
    simp [Collection.FindOne, hc]
  · intro docs consume hok hc
    have hl := findLoop_all_ok consume docs 0 (fun i hi => by simpa using hok i hi)
    simp only [Nat.zero_add] at hl
    simp [Collection.Find, hl, hc]
  · intro docs consume i e hi hpre hcur
    have hl := findLoop_abort consume docs 0 i e hi
      (fun j hj hji => by simpa using hpre j hj hji) (by simpa using hcur)
    simp [Collection.Find, hl]

/-- Witness for the amended C2: a non-sentinel error propagates unchanged
from `FindOne`, and the sentinel from its document call is swallowed. -/
theorem consume_error_propagation_wit :
    Collection.FindOne (Except.ok 3) (fun _ => some (MErr.custom 9)) = some (MErr.custom 9) ∧
    Collection.FindOne (Except.ok 3) (fun _ => some MErr.eof) = none := by
  have h1 := consume_error_propagation.1 3 (fun _ => some (MErr.custom 9)) (MErr.custom 9) rfl
  have h2 := consume_error_propagation.1 3 (fun _ => some MErr.eof) MErr.eof rfl
  exact ⟨by simpa using h1, by simpa using h2⟩

/-! ## Claims about the in-memory user repository -/

/-- C5: against a repository already holding the identifier (no fault
injected), `Create` fails with the duplicate-user error and leaves the
repository — in particular the value stored under that identifier —
unchanged, while `Save` of the same user succeeds and overwrites it. -/
theorem create_duplicate_save_overwrites (r : UserRepo) (u v : UserV)
    (he : r.err = none) (hl : SyncMap.load r.data u.uid = some v) :
    r.create u = (some RErr.duplicatedUser, r) ∧
    SyncMap.load (r.create u).2.data u.uid = some v ∧
    r.save u = (none, { r with data := SyncMap.store r.data u.uid u }) ∧
    SyncMap.load (r.save u).2.data u.uid = some u := by
  have hc : r.create u = (some RErr.duplicatedUser, r) := by
    simp [UserRepo.create, he, hl]
  refine ⟨hc, ?_, ?_, ?_⟩
  · rw [hc]
    exact hl
  · simp [UserRepo.save, he]
  · simp [UserRepo.save, he, SyncMap.load_store_self]

/-- Witness for C5: id 1 already stored; `Create` is rejected, `Save`
overwrites. -/
theorem create_duplicate_save_overwrites_wit :
    SyncMap.load [(1, UserV.mk 1 "a" "a@e" [] none none)] 1
        = some (UserV.mk 1 "a" "a@e" [] none none) ∧
    (UserRepo.create ⟨[(1, UserV.mk 1 "a" "a@e" [] none none)], none⟩
        (UserV.mk 1 "b" "b@e" [] none none)).1 = some RErr.duplicatedUser ∧
    SyncMap.load (UserRepo.save ⟨[(1, UserV.mk 1 "a" "a@e" [] none none)], none⟩
        (UserV.mk 1 "b" "b@e" [] none none)).2.data 1
        = some (UserV.mk 1 "b" "b@e" [] none none) := by
  have h := create_duplicate_save_overwrites
    ⟨[(1, UserV.mk 1 "a" "a@e" [] none none)], none⟩
    (UserV.mk 1 "b" "b@e" [] none none) (UserV.mk 1 "a" "a@e" [] none none)
    rfl (by decide)
  exact ⟨by decide, by rw [h.1], h.2.2.2⟩

/-- Counterexample to C6: when the first candidate's auths do not contain the
sub, a second call with a different candidate and the same sub does not
return the originally stored user — it stores and returns the new
candidate. -/
theorem findBySubOrCreate_second_call_cex :
    ((((UserRepo.mk [] none).findBySubOrCreate (UserV.mk 1 "a" "a@e" [] none none)
        "s").2).findBySubOrCreate (UserV.mk 2 "b" "b@e" [] none none) "s").1
      = Except.ok (UserV.mk 2 "b" "b@e" [] none none) ∧
    UserV.mk 2 "b" "b@e" [] none none ≠ UserV.mk 1 "a" "a@e" [] none none ∧
    SyncMap.load ((((UserRepo.mk [] none).findBySubOrCreate
        (UserV.mk 1 "a" "a@e" [] none none) "s").2).findBySubOrCreate
        (UserV.mk 2 "b" "b@e" [] none none) "s").2.data 2
      = some (UserV.mk 2 "b" "b@e" [] none none) :=
  ⟨rfl, by decide, rfl⟩

/-- C6 (amended): when the first candidate's auths contain the sub,
`FindBySubOrCreate` against a store with no user holding the sub stores the
candidate under its identifier and returns it, and a subsequent call with any
other candidate and the same sub returns the originally stored user and does
not change the store. -/
theorem findBySubOrCreate_then_found (r : UserRepo) (u u2 : UserV) (sub : String)
    (he : r.err = none)
    (hn : SyncMap.find r.data (fun _ v => v.containAuth sub) = none)
    (ha : u.containAuth sub = true) :
    r.findBySubOrCreate u sub
        = (Except.ok u, { r with data := SyncMap.store r.data u.uid u }) ∧
    SyncMap.load (r.findBySubOrCreate u sub).2.data u.uid = some u ∧
    ((r.findBySubOrCreate u sub).2).findBySubOrCreate u2 sub
        = (Except.ok u, (r.findBySubOrCreate u sub).2) := by
  have h1 : r.findBySubOrCreate u sub
      = (Except.ok u, { r with data := SyncMap.store r.data u.uid u }) := by
    simp [UserRepo.findBySubOrCreate, he, hn]
  have hf := SyncMap.find_store_of_none r.data u.uid u (fun _ v => v.containAuth sub) hn ha
  refine ⟨h1, ?_, ?_⟩
  · rw [h1]
    exact SyncMap.load_store_self r.data u.uid u
  · rw [h1]
    simp [UserRepo.findBySubOrCreate, he, hf]

/-- Witness for the amended C6. -/
theorem findBySubOrCreate_then_found_wit :
    (UserRepo.mk [] none).findBySubOrCreate (UserV.mk 1 "a" "a@e" ["s"] none none) "s"
      = (Except.ok (UserV.mk 1 "a" "a@e" ["s"] none none),
         UserRepo.mk [(1, UserV.mk 1 "a" "a@e" ["s"] none none)] none) ∧
    ((((UserRepo.mk [] none).findBySubOrCreate (UserV.mk 1 "a" "a@e" ["s"] none none)
        "s").2).findBySubOrCreate (UserV.mk 2 "b" "b@e" [] none none) "s").1
      = Except.ok (UserV.mk 1 "a" "a@e" ["s"] none none) := by
  have h := findBySubOrCreate_then_found (UserRepo.mk [] none)
    (UserV.mk 1 "a" "a@e" ["s"] none none) (UserV.mk 2 "b" "b@e" [] none none) "s"
    rfl rfl (by decide)
  exact ⟨h.1, by rw [h.2.2]⟩

/-- C7: with no injected fault, each in-memory attribute lookup rejects the
empty string with InvalidParams, and a non-empty argument whose scan matches
no stored user fails with NotFound. -/
theorem lookup_empty_invalid_missing_notFound :
    (∀ r : UserRepo, r.err = none →
      r.findBySub "" = Except.error RErr.invalidParams ∧
      r.findByEmail "" = Except.error RErr.invalidParams ∧
      r.findByName "" = Except.error RErr.invalidParams ∧
      r.findByNameOrEmail "" = Except.error RErr.invalidParams ∧
      r.findByVerification "" = Except.error RErr.invalidParams ∧
      r.findByPasswordResetRequest "" = Except.error RErr.invalidParams) ∧
    (∀ (r : UserRepo) (s : String), r.err = none → s ≠ "" →
      (SyncMap.find r.data (fun _ v => v.containAuth s) = none →
        r.findBySub s = Except.error RErr.notFound) ∧
      (SyncMap.find r.data (fun _ v => v.uemail = s) = none →
        r.findByEmail s = Except.error RErr.notFound) ∧
      (SyncMap.find r.data (fun _ v => v.uname = s) = none →
        r.findByName s = Except.error RErr.notFound) ∧
      (SyncMap.find r.data (fun _ v => v.uemail = s ∨ v.uname = s) = none →
        r.findByNameOrEmail s = Except.error RErr.notFound) ∧
      (SyncMap.find r.data (fun _ v =>
          match v.verificationCode with
          | some c => c = s
          | none => false) = none →
        r.findByVerification s = Except.error RErr.notFound) ∧
      (SyncMap.find r.data (fun _ v =>
          match v.passwordResetToken with
          | some t => t = s
          | none => false) = none →
        r.findByPasswordResetRequest s = Except.error RErr.notFound)) := by
  constructor
  · intro r he
    refine ⟨?_, ?_, ?_, ?_, ?_, ?_⟩ <;>
      simp [UserRepo.findBySub, UserRepo.findByEmail, UserRepo.findByName,
        UserRepo.findByNameOrEmail, UserRepo.findByVerification,
        UserRepo.findByPasswordResetRequest, he]
  · intro r s he hs
    refine ⟨?_, ?_, ?_, ?_, ?_, ?_⟩ <;> intro hn <;> try simp at hn
    all_goals
      simp [UserRepo.findBySub, UserRepo.findByEmail, UserRepo.findByName,
        UserRepo.findByNameOrEmail, UserRepo.findByVerification,
        UserRepo.findByPasswordResetRequest, he, hs, hn, errIfNil]

/-- Witness for C7: the empty store, on `FindBySub` with the empty and a
missing sub. -/
theorem lookup_empty_invalid_missing_notFound_wit :
    (UserRepo.mk [] none).findBySub "" = Except.error RErr.invalidParams ∧
    (UserRepo.mk [] none).findBySub "x" = Except.error RErr.notFound := by
  have h1 := lookup_empty_invalid_missing_notFound.1 (UserRepo.mk [] none) rfl
  have h2 := lookup_empty_invalid_missing_notFound.2 (UserRepo.mk [] none) "x" rfl
    (by decide)
  exact ⟨h1.1, h2.1 rfl⟩

/-- C10: `FindBySubOrCreate` does not validate its sub argument: with the
empty sub and no injected fault it never returns an error (in particular not
InvalidParams), and when no stored user's auths contain the empty sub it
stores the candidate and returns it — whereas `FindBySub` rejects the empty
sub with InvalidParams. -/
theorem findBySubOrCreate_no_validation (r : UserRepo) (u : UserV) (he : r.err = none) :
    (∀ e : RErr, (r.findBySubOrCreate u "").1 ≠ Except.error e) ∧
    (SyncMap.find r.data (fun _ v => v.containAuth "") = none →
      r.findBySubOrCreate u ""
        = (Except.ok u, { r with data := SyncMap.store r.data u.uid u })) ∧
    r.findBySub "" = Except.error RErr.invalidParams := by
  refine ⟨?_, ?_, ?_⟩
  · intro e
    cases hf : SyncMap.find r.data (fun _ v => v.containAuth "") <;>
      simp [UserRepo.findBySubOrCreate, he, hf]
  · intro hn
    simp [UserRepo.findBySubOrCreate, he, hn]
  · simp [UserRepo.findBySub, he]

/-- Witness for C10: the empty store and a concrete candidate. -/
theorem findBySubOrCreate_no_validation_wit :
    ((UserRepo.mk [] none).findBySubOrCreate (UserV.mk 1 "a" "a@e" [] none none) "").1
      ≠ Except.error RErr.invalidParams ∧
    (UserRepo.mk [] none).findBySubOrCreate (UserV.mk 1 "a" "a@e" [] none none) ""
      = (Except.ok (UserV.mk 1 "a" "a@e" [] none none),
         UserRepo.mk [(1, UserV.mk 1 "a" "a@e" [] none none)] none) ∧
    (UserRepo.mk [] none).findBySub "" = Except.error RErr.invalidParams := by
  have h := findBySubOrCreate_no_validation (UserRepo.mk [] none)
    (UserV.mk 1 "a" "a@e" [] none none) rfl
  exact ⟨h.1 RErr.invalidParams, h.2.1 rfl, h.2.2⟩

/-! ## Claims about Pagination -/

/-- C8: `Clone` of nil is nil; for a non-nil `Pagination` in a well-formed
heap (live locations below `next`), each set descriptor is copied into a
distinct fresh cell with equal contents, the source cell is untouched, and
mutating the cloned cell does not change the source cell, nor the other way
round. -/
theorem pagination_clone_independent :
    (∀ h : PagHeap, Pagination.clone h none = (none, h)) ∧
    (∀ (h : PagHeap) (pg : Pagination) (l lc : Nat),
      pg.cursor = some l → l < h.next →
      optCursor (Pagination.clone h (some pg)).1 = some lc →
      lc ≠ l ∧
      (Pagination.clone h (some pg)).2.cpag lc = h.cpag l ∧
      (Pagination.clone h (some pg)).2.cpag l = h.cpag l ∧
      (∀ f, (updateC (Pagination.clone h (some pg)).2 lc f).cpag l
          = (Pagination.clone h (some pg)).2.cpag l) ∧
      (∀ f, (updateC (Pagination.clone h (some pg)).2 l f).cpag lc
          = (Pagination.clone h (some pg)).2.cpag lc)) ∧
    (∀ (h : PagHeap) (pg : Pagination) (m lo : Nat),
      pg.offset = some m → m < h.next →
      optOffset (Pagination.clone h (some pg)).1 = some lo →
      lo ≠ m ∧
      (Pagination.clone h (some pg)).2.opag lo = h.opag m ∧
      (Pagination.clone h (some pg)).2.opag m = h.opag m ∧
      (∀ f, (updateO (Pagination.clone h (some pg)).2 lo f).opag m
          = (Pagination.clone h (some pg)).2.opag m) ∧
      (∀ f, (updateO (Pagination.clone h (some pg)).2 m f).opag lo
          = (Pagination.clone h (some pg)).2.opag lo)) ∧
    (∀ (h : PagHeap) (pg : Pagination),
      (optCursor (Pagination.clone h (some pg)).1).isSome = pg.cursor.isSome ∧
      (optOffset (Pagination.clone h (some pg)).1).isSome = pg.offset.isSome) := by
  refine ⟨fun h => rfl, ?_, ?_, ?_⟩
  · intro h pg l lc hc hlt hlc
    obtain ⟨pc, po⟩ := pg
    simp only [Pagination.cursor] at hc
    subst hc
    obtain ⟨hc1, hc2⟩ := clone_cursor_some h l po
    rw [hc1] at hlc
    have hlceq : lc = h.next := by
      exact (Option.some.inj hlc).symm
    subst hlceq
    have hne : h.next ≠ l := by omega
    refine ⟨hne, ?_, ?_, ?_, ?_⟩
    · rw [hc2 h.next, if_pos rfl]
    · rw [hc2 l, if_neg (by omega)]
    · intro f
      simp [updateC, hne.symm]
    · intro f
      simp [updateC, hne]
  · intro h pg m lo ho hlt hlo
    obtain ⟨pc, po⟩ := pg
    simp only [Pagination.offset] at ho
    subst ho
    obtain ⟨lo', hl1, hl2, hl3⟩ := clone_offset_some h m pc
    rw [hl1] at hlo
    have hloeq : lo = lo' := (Option.some.inj hlo).symm
    subst hloeq
    have hne : lo ≠ m := by omega
    refine ⟨hne, ?_, ?_, ?_, ?_⟩
    · rw [hl3 lo, if_pos rfl]
    · rw [hl3 m, if_neg (by omega)]
    · intro f
      simp [updateO, hne.symm]
    · intro f
      simp [updateO, hne]
  · intro h pg
    obtain ⟨pc, po⟩ := pg
    cases pc <;> cases po <;>
      simp [Pagination.clone, cloneRefC, cloneRefO, allocC, allocO,
        optCursor, optOffset]

/-- Witness for C8: cloning a pagination whose cursor descriptor lives at
location 0 of the one-cell heap; the copy lands at the fresh location 1 and
mutation at either location leaves the other cell unchanged. -/
theorem pagination_clone_independent_wit :
    Pagination.clone pagHeap0 none = (none, pagHeap0) ∧
    (1 : Nat) ≠ 0 ∧
    (Pagination.clone pagHeap0 (some (Pagination.mk (some 0) none))).2.cpag 1
        = pagHeap0.cpag 0 ∧
    (updateC (Pagination.clone pagHeap0 (some (Pagination.mk (some 0) none))).2 1
        (fun _ => CursorPagination.mk (some 5) none none none)).cpag 0
      = (Pagination.clone pagHeap0 (some (Pagination.mk (some 0) none))).2.cpag 0 ∧
    (updateC (Pagination.clone pagHeap0 (some (Pagination.mk (some 0) none))).2 0
        (fun _ => CursorPagination.mk (some 5) none none none)).cpag 1
      = (Pagination.clone pagHeap0 (some (Pagination.mk (some 0) none))).2.cpag 1 := by
  have h := pagination_clone_independent.2.1 pagHeap0 (Pagination.mk (some 0) none) 0 1
    rfl (by simp [pagHeap0]) rfl
  exact ⟨pagination_clone_independent.1 pagHeap0, h.1, h.2.1,
    h.2.2.2.1 (fun _ => CursorPagination.mk (some 5) none none none),
    h.2.2.2.2 (fun _ => CursorPagination.mk (some 5) none none none)⟩

/-- C9: `CursorPagination.Wrap` sets only the cursor descriptor,
`OffsetPagination.Wrap` only the offset descriptor, and `Clone` preserves the
invariant that the two descriptors are never both populated. -/
theorem pagination_union_invariant :
    (∀ (h : PagHeap) (c : CursorPagination),
      ((CursorPagination.wrap h c).1.cursor).isSome = true ∧
      (CursorPagination.wrap h c).1.offset = none) ∧
    (∀ (h : PagHeap) (o : OffsetPagination),
      (OffsetPagination.wrap h o).1.cursor = none ∧
      ((OffsetPagination.wrap h o).1.offset).isSome = true) ∧
    (∀ (h : PagHeap) (pg pg' : Pagination),
      pg.cursor = none ∨ pg.offset = none →
      (Pagination.clone h (some pg)).1 = some pg' →
      pg'.cursor = none ∨ pg'.offset = none) := by
  refine ⟨fun h c => ⟨rfl, rfl⟩, fun h o => ⟨rfl, rfl⟩, ?_⟩
  intro h pg pg' hinv hcl
  obtain ⟨pc, po⟩ := pg
  cases hinv with
  | inl hx =>
    simp only [Pagination.cursor] at hx
    subst hx
    cases po with
    | none =>
      simp [Pagination.clone, cloneRefC, cloneRefO] at hcl
      exact Or.inl (by rw [← hcl])
    | some m =>
      simp [Pagination.clone, cloneRefC, cloneRefO, allocO] at hcl
      exact Or.inl (by rw [← hcl])
  | inr hx =>
    simp only [Pagination.offset] at hx
    subst hx
    cases pc with
    | none =>
      simp [Pagination.clone, cloneRefC, cloneRefO] at hcl
      exact Or.inr (by rw [← hcl])
    | some l =>
      simp [Pagination.clone, cloneRefC, cloneRefO, allocC] at hcl
      exact Or.inr (by rw [← hcl])

/-- Witness for C9: wrapping and cloning concrete descriptors. -/
theorem pagination_union_invariant_wit :
    (CursorPagination.wrap pagHeap0 (CursorPagination.mk none none none none)).1.offset
        = none ∧
    (OffsetPagination.wrap pagHeap0 (OffsetPagination.mk 3 4)).1.cursor = none ∧
    ((Pagination.mk (some 1) none : Pagination).cursor = none ∨
      (Pagination.mk (some 1) none : Pagination).offset = none) := by
  refine ⟨(pagination_union_invariant.1 pagHeap0 (CursorPagination.mk none none none none)).2,
    (pagination_union_invariant.2.1 pagHeap0 (OffsetPagination.mk 3 4)).1, ?_⟩
  exact pagination_union_invariant.2.2 pagHeap0 (Pagination.mk (some 0) none)
    (Pagination.mk (some 1) none) (Or.inr rfl) rfl
